import Mathlib

/-!
Verification development for the LumberTrackAI shift ledger.

Shallow embedding of the client-side shift/earnings computation and
cart-reconciliation logic:
  * `calculateStats`        — src/services/geminiService.ts
  * `calculateLocalStats`   — ProductGrid component
  * `applyDelta` / `removeItem` / `clearCart` — App.tsx `handleUpdateCart`,
    `handleRemoveItem`, `handleClearCart` (the same algorithm appears in the
    history-edit flow's `handleCartUpdate`)
  * `saveToHistory` / `handleSaveSuccess`    — App.tsx
  * `handleSaveEdit` / `deleteEntry` / `updateSheetEntry` — history edit flow
    and sheet service
  * `analysisHandleSave` / `canSave`         — AnalysisView component
  * `employeeHandleSave`                     — EmployeeInputView component

JavaScript numbers are modelled by `ℚ` (prices, volumes) and `ℤ`
(dimensions, quantities, percentages); `Math.round` by `jsRound`
(round half up, i.e. `⌊x + 1/2⌋`). Effectful persistence calls are
modelled by explicit call logs (`SheetPayload` lists), and the network
outcome of a `fetch` by a boolean parameter.
-/

/-! ### Data model (src/types.ts) -/

/-- Nominal dimensions of a catalog product, in millimeters. -/
structure ProductDims where
  length : ℤ
  width : ℤ
  thickness : ℤ
deriving DecidableEq, Repr

/-- A catalog entry (`Product` in types.ts); `type` and `image` are omitted
as no modelled computation reads them. -/
structure Product where
  id : String
  name : String
  dimensions : ProductDims
  price : ℚ
deriving DecidableEq, Repr

/-- A (product, quantity) pairing (`CartItem` in types.ts). -/
structure CartItem where
  product : Product
  quantity : ℤ
deriving DecidableEq, Repr

/-- Board being processed in one shift (`BoardDimensions` in types.ts). -/
structure BoardDimensions where
  id : String
  length : ℤ
  width : ℤ
  thickness : ℤ
  batchNumber : String
deriving DecidableEq, Repr

/-- The numeric fields of `AnalysisResult` returned by `calculateStats`
(the free-text commentary fields are not modelled). -/
structure Stats where
  earnings : ℚ
  yieldPercentage : ℤ
  boardVolumeM3 : ℚ
  productsVolumeM3 : ℚ
deriving DecidableEq, Repr

/-! ### Math.round -/

/-- JavaScript `Math.round`: round half up, `⌊x + 1/2⌋`. -/
def jsRound (q : ℚ) : ℤ := ⌊q + 1 / 2⌋

/-! ### Stats Calculator (src/services/geminiService.ts, `calculateStats`) -/

/-- Volume of one product in cubic millimeters:
`dimensions.length * dimensions.width * dimensions.thickness`. -/
def productVolMm3 (p : Product) : ℤ :=
  p.dimensions.length * p.dimensions.width * p.dimensions.thickness

/-- Lean embedding of `calculateStats` from src/services/geminiService.ts. -/
def calculateStats (board : Option BoardDimensions) (items : List CartItem) : Stats :=
  let totalEarnings : ℚ :=
    items.foldl (fun sum item => sum + item.product.price * (item.quantity : ℚ)) 0
  let boardVolumeMm3 : ℤ :=
    match board with
    | some b => b.width * b.thickness * b.length
    | none => 0
  let boardVolumeM3 : ℚ := (boardVolumeMm3 : ℚ) / 1000000000
  let productsVolumeMm3 : ℤ :=
    items.foldl (fun acc item => acc + productVolMm3 item.product * item.quantity) 0
  let productsVolumeM3 : ℚ := (productsVolumeMm3 : ℚ) / 1000000000
  let yieldPercentage : ℤ :=
    if boardVolumeMm3 > 0 then
      jsRound ((productsVolumeMm3 : ℚ) / (boardVolumeMm3 : ℚ) * 100)
    else 0
  { earnings := totalEarnings
    yieldPercentage := yieldPercentage
    boardVolumeM3 := boardVolumeM3
    productsVolumeM3 := productsVolumeM3 }

/-- Lean embedding of `calculateLocalStats` from the ProductGrid component:
product-only stats when no board is present, otherwise defer to
`calculateStats`. -/
def calculateLocalStats (board : Option BoardDimensions) (cart : List CartItem) : Stats :=
  let productStats : ℚ × ℤ :=
    cart.foldl
      (fun acc item =>
        (acc.1 + item.product.price * (item.quantity : ℚ),
         acc.2 + productVolMm3 item.product * item.quantity))
      (0, 0)
  match board with
  | none =>
      { earnings := productStats.1
        boardVolumeM3 := 0
        productsVolumeM3 := (productStats.2 : ℚ) / 1000000000
        yieldPercentage := 0 }
  | some b => calculateStats (some b) cart

/-! ### Specification-side sums used to state the claims -/

/-- Sum over cart items of `product.price * quantity`. -/
def cartEarnings (items : List CartItem) : ℚ :=
  (items.map (fun item => item.product.price * (item.quantity : ℚ))).sum

/-- Sum over cart items of per-item dimension products times quantity,
in cubic millimeters. -/
def cartVolumeMm3 (items : List CartItem) : ℤ :=
  (items.map (fun item => productVolMm3 item.product * item.quantity)).sum

/-- Total item count `Σ quantity` of a cart. -/
def cartItemCount (items : List CartItem) : ℤ :=
  (items.map (fun item => item.quantity)).sum

lemma foldl_add_eq_sum {α : Type} [AddCommMonoid α] (f : CartItem → α)
    (items : List CartItem) (a : α) :
    items.foldl (fun acc item => acc + f item) a = a + (items.map f).sum := by
  induction items generalizing a with
  | nil => simp
  | cons x xs ih => simp [ih, add_assoc]

lemma calculateStats_earnings (board : Option BoardDimensions) (items : List CartItem) :
    (calculateStats board items).earnings = cartEarnings items := by
  simp [calculateStats, cartEarnings, foldl_add_eq_sum]

lemma calculateStats_productsVolume (board : Option BoardDimensions) (items : List CartItem) :
    (calculateStats board items).productsVolumeM3 = (cartVolumeMm3 items : ℚ) / 1000000000 := by
  simp [calculateStats, cartVolumeMm3, foldl_add_eq_sum]

/-- The concrete board of the specification's Scenario 1: 2000×150×50 mm. -/
def boardS1 : BoardDimensions := ⟨"b1", 2000, 150, 50, "batch"⟩

/-- The concrete product of the specification's Scenario 1:
price 150, dimensions 800×60×40 mm. -/
def prodS1 : Product := ⟨"p1", "item", ⟨800, 60, 40⟩, 150⟩

/-! ### Cart Reconciler (App.tsx `handleUpdateCart`, `handleRemoveItem`,
`handleClearCart`; the identical algorithm appears as `handleCartUpdate`,
`handleCartRemove`, `handleCartClear` in the history-edit flow) -/

/-- Lean embedding of the cart update in App.tsx `handleUpdateCart`:
find the entry for `product.id`; if present, add `delta` to its quantity,
removing the entry when the new quantity is `≤ 0`; if absent, insert a new
entry with quantity `1` when `delta > 0`, otherwise return the cart
unchanged. -/
def applyDelta (cart : List CartItem) (product : Product) (delta : ℤ) : List CartItem :=
  match cart.find? (fun item => item.product.id == product.id) with
  | some existing =>
      let newQty := existing.quantity + delta
      if newQty ≤ 0 then
        cart.filter (fun item => !(item.product.id == product.id))
      else
        cart.map (fun item =>
          if item.product.id == product.id then { item with quantity := newQty } else item)
  | none =>
      if delta > 0 then cart ++ [{ product := product, quantity := 1 }] else cart

/-- Lean embedding of App.tsx `handleRemoveItem`: unconditional filter-out. -/
def removeItem (cart : List CartItem) (productId : String) : List CartItem :=
  cart.filter (fun item => !(item.product.id == productId))

/-- Lean embedding of App.tsx `handleClearCart`. -/
def clearCart (_cart : List CartItem) : List CartItem := []

/-- A product `p` is absent from a cart: no entry carries its id. -/
def AbsentFrom (cart : List CartItem) (p : Product) : Prop :=
  ∀ item ∈ cart, item.product.id ≠ p.id

instance (cart : List CartItem) (p : Product) : Decidable (AbsentFrom cart p) := by
  unfold AbsentFrom; infer_instance

lemma find?_eq_none_of_absent (cart : List CartItem) (p : Product)
    (h : AbsentFrom cart p) :
    cart.find? (fun item => item.product.id == p.id) = none := by
  rw [List.find?_eq_none]
  intro item hmem
  simpa using h item hmem

lemma applyDelta_absent_pos (cart : List CartItem) (p : Product) (delta : ℤ)
    (habs : AbsentFrom cart p) (hpos : 0 < delta) :
    applyDelta cart p delta = cart ++ [{ product := p, quantity := 1 }] := by
  unfold applyDelta
  rw [find?_eq_none_of_absent cart p habs]
  simp [hpos]

lemma applyDelta_absent_nonpos (cart : List CartItem) (p : Product) (delta : ℤ)
    (habs : AbsentFrom cart p) (hnp : delta ≤ 0) :
    applyDelta cart p delta = cart := by
  unfold applyDelta
  rw [find?_eq_none_of_absent cart p habs]
  simp [not_lt.mpr hnp]

lemma applyDelta_insert_then_remove (cart : List CartItem) (p : Product)
    (habs : AbsentFrom cart p) :
    applyDelta (applyDelta cart p 1) p (-1) = cart := by
  rw [applyDelta_absent_pos cart p 1 habs (by norm_num)]
  unfold applyDelta
  rw [List.find?_append, find?_eq_none_of_absent cart p habs]
  simp only [Option.none_orElse, List.find?_cons]
  have hbeq : (p.id == p.id) = true := by simp
  simp only [hbeq, cond_true]
  norm_num
  intro item hmem
  exact habs item hmem

/-! ### Cart invariant: unique product ids, positive quantities -/

/-- Cart well-formedness: each product id appears at most once, and every
stored quantity is positive. -/
def CartWF (cart : List CartItem) : Prop :=
  (cart.map (fun item => item.product.id)).Nodup ∧ ∀ item ∈ cart, 0 < item.quantity

instance (cart : List CartItem) : Decidable (CartWF cart) := by
  unfold CartWF; infer_instance

lemma cartWF_filter (cart : List CartItem) (g : CartItem → Bool) (h : CartWF cart) :
    CartWF (cart.filter g) := by
  obtain ⟨hnd, hpos⟩ := h
  constructor
  · exact List.Nodup.sublist (List.Sublist.map _ (List.filter_sublist cart)) hnd
  · intro item hmem
    exact hpos item (List.mem_of_mem_filter hmem)

lemma cartWF_applyDelta (cart : List CartItem) (p : Product) (delta : ℤ)
    (h : CartWF cart) : CartWF (applyDelta cart p delta) := by
  unfold applyDelta
  cases hfind : cart.find? (fun item => item.product.id == p.id) with
  | none =>
      by_cases hpos : delta > 0
      · simp only [hpos, if_true]
        have habs : ∀ item ∈ cart, item.product.id ≠ p.id := by
          intro item hmem
          have := List.find?_eq_none.mp hfind item hmem
          simpa using this
        obtain ⟨hnd, hq⟩ := h
        constructor
        · rw [List.map_append]
          rw [List.nodup_append]
          refine ⟨hnd, by simp, ?_⟩
          intro a ha
          simp only [List.map_cons, List.map_nil, List.mem_singleton]
          obtain ⟨item, hmem, rfl⟩ := List.mem_map.mp ha
          intro hcontra
          exact habs item hmem hcontra
        · intro item hmem
          rcases List.mem_append.mp hmem with hl | hr
          · exact hq item hl
          · simp only [List.mem_singleton] at hr
            subst hr
            norm_num
      · simp only [hpos, if_false]
        exact h
  | some existing =>
      by_cases hle : existing.quantity + delta ≤ 0
      · simp only [hle, if_true]
        exact cartWF_filter cart _ h
      · simp only [hle, if_false]
        obtain ⟨hnd, hq⟩ := h
        constructor
        · have hids : (cart.map (fun item =>
              if item.product.id == p.id then
                { item with quantity := existing.quantity + delta }
              else item)).map (fun item => item.product.id)
              = cart.map (fun item => item.product.id) := by
            rw [List.map_map]
            apply List.map_congr_left
            intro item _
            by_cases hid : item.product.id = p.id <;> simp [hid]
          rw [hids]
          exact hnd
        · intro item hmem
          obtain ⟨orig, hor, rfl⟩ := List.mem_map.mp hmem
          by_cases hid : orig.product.id == p.id
          · simp only [hid, if_true]
            omega
          · simp only [hid, if_false]
            exact hq orig hor

/-- A single cart operation, as exposed by the UI callbacks in App.tsx and
the history-edit flow in the history component. -/
inductive CartOp where
  | update (p : Product) (delta : ℤ)
  | remove (productId : String)
  | clear
deriving Repr

/-- Apply one cart operation. -/
def applyOp (cart : List CartItem) : CartOp → List CartItem
  | .update p delta => applyDelta cart p delta
  | .remove productId => removeItem cart productId
  | .clear => clearCart cart

/-- Apply a finite sequence of cart operations, left to right. -/
def applyOps (cart : List CartItem) (ops : List CartOp) : List CartItem :=
  ops.foldl applyOp cart

lemma cartWF_applyOp (cart : List CartItem) (op : CartOp) (h : CartWF cart) :
    CartWF (applyOp cart op) := by
  cases op with
  | update p delta => exact cartWF_applyDelta cart p delta h
  | remove productId => exact cartWF_filter cart _ h
  | clear => exact ⟨List.nodup_nil, by intro item hmem; exact absurd hmem (List.not_mem_nil item)⟩

/-- Sample catalog products for concrete witnesses. -/
def prodS2 : Product := ⟨"p2", "handle", ⟨500, 40, 30⟩, 75⟩

/-- C2: for a product absent from the cart, a positive delta inserts a new
entry with quantity exactly 1 regardless of the delta's magnitude, a
non-positive delta returns the cart unchanged, and in particular
`applyDelta [] p (-1) = []`. -/
theorem claim_C2_applyDelta_absent (cart : List CartItem) (p : Product) (delta : ℤ)
    (habs : AbsentFrom cart p) :
    (0 < delta → applyDelta cart p delta = cart ++ [{ product := p, quantity := 1 }]) ∧
    (delta ≤ 0 → applyDelta cart p delta = cart) ∧
    applyDelta [] p (-1) = [] := by
  refine ⟨fun hpos => applyDelta_absent_pos cart p delta habs hpos,
          fun hnp => applyDelta_absent_nonpos cart p delta habs hnp, ?_⟩
  exact applyDelta_absent_nonpos [] p (-1) (by intro item hmem; simp at hmem) (by norm_num)

/-- Witness for C2 at a concrete input: inserting an absent product with
delta 5 into the singleton cart `[⟨prodS2, 2⟩]` appends quantity 1. -/
theorem claim_C2_witness :
    AbsentFrom [⟨prodS2, 2⟩] prodS1 ∧ (0 : ℤ) < 5 ∧
    applyDelta [⟨prodS2, 2⟩] prodS1 5 =
      [⟨prodS2, 2⟩, { product := prodS1, quantity := 1 }] :=
  ⟨by decide,
   by norm_num,
   (claim_C2_applyDelta_absent [⟨prodS2, 2⟩] prodS1 5
      (by decide)).1
     (by norm_num)⟩

/-- C3: starting from any well-formed cart (unique product ids, positive
quantities), any finite sequence of cart operations preserves
well-formedness: at most one entry per product id, and no entry is ever
stored with quantity `≤ 0`. -/
theorem claim_C3_cart_invariant (cart : List CartItem) (ops : List CartOp)
    (h : CartWF cart) : CartWF (applyOps cart ops) := by
  induction ops generalizing cart with
  | nil => exact h
  | cons op rest ih => exact ih (applyOp cart op) (cartWF_applyOp cart op h)

/-- C4: for a product absent from the cart, applying delta `+1` then delta
`-1` returns the original cart. -/
theorem claim_C4_insert_remove_roundtrip (cart : List CartItem) (p : Product)
    (habs : AbsentFrom cart p) :
    applyDelta (applyDelta cart p 1) p (-1) = cart :=
  applyDelta_insert_then_remove cart p habs

/-- Witness for C4 at a concrete input. -/
theorem claim_C4_witness :
    AbsentFrom [⟨prodS2, 3⟩] prodS1 ∧
    applyDelta (applyDelta [⟨prodS2, 3⟩] prodS1 1) prodS1 (-1) = [⟨prodS2, 3⟩] :=
  ⟨by decide,
   claim_C4_insert_remove_roundtrip [⟨prodS2, 3⟩] prodS1
     (by decide)⟩

/-- Witness for C3: a concrete well-formed cart stays well-formed under a
concrete sequence of updates, removals and a repeated insert. -/
theorem claim_C3_witness :
    CartWF [⟨prodS2, 2⟩] ∧
    CartWF (applyOps [⟨prodS2, 2⟩]
      [.update prodS1 5, .update prodS1 (-1), .update prodS2 1,
       .remove "p1", .update prodS1 2]) :=
  ⟨by decide,
   claim_C3_cart_invariant [⟨prodS2, 2⟩]
     [.update prodS1 5, .update prodS1 (-1), .update prodS2 1,
      .remove "p1", .update prodS1 2] (by decide)⟩

/-! ### History (App.tsx `handleSaveSuccess`, `handleHistoryUpdate`) -/

/-- Elapsed-time breakdown (`TimeStats` in types.ts), in seconds. -/
structure TimeStats where
  durationFetch : ℤ
  durationMeasure : ℤ
  durationSawing : ℤ
deriving DecidableEq, Repr

/-- A persisted snapshot of one completed shift (`HistoryEntry` in types.ts). -/
structure HistoryEntry where
  id : String
  boardId : String
  timestamp : String
  batchNumber : String
  earnings : ℚ
  yieldPercentage : ℤ
  itemCount : ℤ
  boardDims : String
  boardVolume : ℚ
  cart : List CartItem
  timeStats : Option TimeStats
deriving DecidableEq, Repr

/-- JavaScript `Array.prototype.findIndex` (as `none` instead of `-1`). -/
def jsFindIndex {α : Type} (p : α → Bool) : List α → Option ℕ
  | [] => none
  | x :: xs => if p x then some 0 else (jsFindIndex p xs).map (· + 1)

/-- The history reconciliation inside App.tsx `handleSaveSuccess`'s
`setHistory` updater: if an entry with the same board id exists, overwrite
it in place, otherwise prepend the new entry. -/
def saveToHistory (history : List HistoryEntry) (fullEntry : HistoryEntry) : List HistoryEntry :=
  match jsFindIndex (fun item => item.boardId == fullEntry.boardId) history with
  | some idx => history.set idx fullEntry
  | none => fullEntry :: history

/-- The entry assembled at the top of App.tsx `handleSaveSuccess`: clone the
current cart into the entry, record the board volume from the current
analysis result, and key by `board?.id || entry.id` (JavaScript `||`, so an
absent board or an empty-string board id falls back to `entry.id`). -/
def mkFullEntry (entry : HistoryEntry) (cart : List CartItem)
    (analysisResult : Option Stats) (board : Option BoardDimensions) : HistoryEntry :=
  { entry with
    cart := cart
    boardVolume := match analysisResult with
      | some r => r.boardVolumeM3
      | none => 0
    boardId := match board with
      | some b => if b.id = "" then entry.id else b.id
      | none => entry.id }

/-- Lean embedding of App.tsx `handleSaveSuccess`. -/
def handleSaveSuccess (history : List HistoryEntry) (board : Option BoardDimensions)
    (cart : List CartItem) (analysisResult : Option Stats) (entry : HistoryEntry) :
    List HistoryEntry :=
  saveToHistory history (mkFullEntry entry cart analysisResult board)

/-- Lean embedding of App.tsx `handleHistoryUpdate`: replace entries whose
internal `id` matches the updated entry's, leaving the list's length alone. -/
def handleHistoryUpdate (history : List HistoryEntry) (updatedEntry : HistoryEntry) :
    List HistoryEntry :=
  history.map (fun item => if item.id = updatedEntry.id then updatedEntry else item)

/-- History well-formedness: at most one entry per distinct board id. -/
def HistWF (history : List HistoryEntry) : Prop :=
  (history.map (fun item => item.boardId)).Nodup

instance (history : List HistoryEntry) : Decidable (HistWF history) := by
  unfold HistWF; infer_instance

lemma jsFindIndex_eq_none_iff {α : Type} (p : α → Bool) (l : List α) :
    jsFindIndex p l = none ↔ ∀ x ∈ l, ¬ p x := by
  induction l with
  | nil => simp [jsFindIndex]
  | cons x xs ih =>
      by_cases hx : p x
      · simp [jsFindIndex, hx]
      · simp [jsFindIndex, hx, ih]

lemma saveToHistory_of_not_mem (history : List HistoryEntry) (e : HistoryEntry)
    (h : ∀ x ∈ history, x.boardId ≠ e.boardId) :
    saveToHistory history e = e :: history := by
  unfold saveToHistory
  rw [(jsFindIndex_eq_none_iff _ _).mpr (by intro x hx; simpa using h x hx)]

lemma saveToHistory_filter (history : List HistoryEntry) (e : HistoryEntry)
    (hwf : HistWF history) :
    (saveToHistory history e).filter (fun x => x.boardId == e.boardId) = [e] := by
  induction history with
  | nil =>
      simp [saveToHistory, jsFindIndex, List.filter]
  | cons x xs ih =>
      have hwf' : HistWF xs := by
        unfold HistWF at hwf ⊢
        exact (List.nodup_cons.mp hwf).2
      have hxnot : x.boardId ∉ xs.map (fun item => item.boardId) :=
        (List.nodup_cons.mp hwf).1
      by_cases hx : x.boardId = e.boardId
      · have : saveToHistory (x :: xs) e = e :: xs := by
          unfold saveToHistory
          simp [jsFindIndex, hx]
        rw [this]
        have hxs : xs.filter (fun y => y.boardId == e.boardId) = [] := by
          rw [List.filter_eq_nil_iff]
          intro y hy
          simp only [beq_iff_eq]
          intro hcontra
          exact hxnot (by
            rw [hx, ← hcontra] at *
            exact List.mem_map.mpr ⟨y, hy, hcontra.symm ▸ rfl⟩)
        simp [List.filter, hxs]
      · cases hfind : jsFindIndex (fun item => item.boardId == e.boardId) xs with
        | none =>
            have : saveToHistory (x :: xs) e = e :: x :: xs := by
              unfold saveToHistory
              simp [jsFindIndex, hx, hfind]
            rw [this]
            have hall : ∀ y ∈ x :: xs, ¬ (y.boardId == e.boardId) = true := by
              intro y hy
              rcases List.mem_cons.mp hy with rfl | hmem
              · simpa using hx
              · have := (jsFindIndex_eq_none_iff _ xs).mp hfind y hmem
                simpa using this
            have hnil : (x :: xs).filter (fun y => y.boardId == e.boardId) = [] := by
              rw [List.filter_eq_nil_iff]
              exact hall
            rw [List.filter_cons_of_pos (by simp), hnil]
        | some i =>
            have hsave : saveToHistory (x :: xs) e = x :: xs.set i e := by
              unfold saveToHistory
              simp [jsFindIndex, hx, hfind, List.set]
            have hxs : saveToHistory xs e = xs.set i e := by
              unfold saveToHistory
              rw [hfind]
            rw [hsave]
            simp only [List.filter_cons]
            have hxfalse : (x.boardId == e.boardId) = false := by simpa using hx
            rw [hxfalse]
            simp only [Bool.false_eq_true, if_false]
            rw [← hxs]
            exact ih hwf'

lemma histWF_saveToHistory (history : List HistoryEntry) (e : HistoryEntry)
    (hwf : HistWF history) : HistWF (saveToHistory history e) := by
  induction history with
  | nil =>
      simp [saveToHistory, jsFindIndex, HistWF]
  | cons x xs ih =>
      have hwf' : HistWF xs := (List.nodup_cons.mp hwf).2
      have hxnot : x.boardId ∉ xs.map (fun item => item.boardId) :=
        (List.nodup_cons.mp hwf).1
      by_cases hx : x.boardId = e.boardId
      · have heq : saveToHistory (x :: xs) e = e :: xs := by
          unfold saveToHistory
          simp [jsFindIndex, hx]
        rw [heq]
        unfold HistWF
        rw [List.map_cons, List.nodup_cons]
        exact ⟨hx ▸ hxnot, hwf'⟩
      · cases hfind : jsFindIndex (fun item => item.boardId == e.boardId) xs with
        | none =>
            have heq : saveToHistory (x :: xs) e = e :: x :: xs := by
              unfold saveToHistory
              simp [jsFindIndex, hx, hfind]
            rw [heq]
            unfold HistWF
            rw [List.map_cons, List.nodup_cons]
            refine ⟨?_, hwf⟩
            intro hcontra
            rcases List.mem_map.mp hcontra with ⟨y, hy, hyid⟩
            rcases List.mem_cons.mp hy with rfl | hmem
            · exact hx hyid
            · have := (jsFindIndex_eq_none_iff _ xs).mp hfind y hmem
              simp only [beq_iff_eq] at this
              exact this hyid
        | some i =>
            have heq : saveToHistory (x :: xs) e = x :: xs.set i e := by
              unfold saveToHistory
              simp [jsFindIndex, hx, hfind, List.set]
            have hxs : saveToHistory xs e = xs.set i e := by
              unfold saveToHistory
              rw [hfind]
            rw [heq]
            unfold HistWF
            rw [List.map_cons, List.nodup_cons]
            constructor
            · intro hcontra
              rcases List.mem_map.mp hcontra with ⟨y, hy, hyid⟩
              rcases List.mem_or_eq_of_mem_set hy with hmem | rfl
              · exact hxnot (List.mem_map.mpr ⟨y, hmem, hyid⟩)
              · exact hx hyid.symm
            · have := ih hwf'
              rw [hxs] at this
              exact this

/-- Sample history entry builder for concrete witnesses. -/
def sampleEntry (i bid : String) (cart : List CartItem) : HistoryEntry :=
  { id := i, boardId := bid, timestamp := "01.01.2026, 10:00:00", batchNumber := "7"
    earnings := 0, yieldPercentage := 0, itemCount := 0, boardDims := "2000x150x50"
    boardVolume := 0, cart := cart, timeStats := none }

/-- Counterexample to C5 as stated: on a history that already holds two
entries for board id `"b"`, two saves for `"b"` overwrite only the first
match, leaving two entries for that board id, not one. -/
theorem claim_C5_counterexample :
    ((handleSaveSuccess
        (handleSaveSuccess
          [sampleEntry "h1" "b" [], sampleEntry "h2" "b" []]
          (some ⟨"b", 2000, 150, 50, "7"⟩) [] none (sampleEntry "h3" "b" []))
        (some ⟨"b", 2000, 150, 50, "7"⟩) [⟨prodS1, 1⟩] none (sampleEntry "h4" "b" [])).filter
      (fun x => x.boardId == "b")).length ≠ 1 := by
  decide

/-- C5 (amended with the documented invariant that the starting history
holds at most one entry per board id): two saves for the same board
overwrite in place, leaving exactly one entry for that board id, whose
cart is the second save's; a board id absent from the history is
prepended as a new entry. -/
theorem claim_C5_history_overwrite (history : List HistoryEntry)
    (b : BoardDimensions) (cart1 cart2 : List CartItem)
    (r1 r2 : Option Stats) (e1 e2 : HistoryEntry)
    (hwf : HistWF history) (hid : b.id ≠ "") :
    (((handleSaveSuccess (handleSaveSuccess history (some b) cart1 r1 e1)
        (some b) cart2 r2 e2).filter (fun x => x.boardId == b.id)).length = 1) ∧
    (∀ x ∈ handleSaveSuccess (handleSaveSuccess history (some b) cart1 r1 e1)
        (some b) cart2 r2 e2, x.boardId = b.id → x.cart = cart2) ∧
    (b.id ∉ history.map (fun x => x.boardId) →
      handleSaveSuccess history (some b) cart1 r1 e1 =
        mkFullEntry e1 cart1 r1 (some b) :: history) := by
  have hbid1 : (mkFullEntry e1 cart1 r1 (some b)).boardId = b.id := by
    simp [mkFullEntry, hid]
  have hbid2 : (mkFullEntry e2 cart2 r2 (some b)).boardId = b.id := by
    simp [mkFullEntry, hid]
  have hwf1 : HistWF (handleSaveSuccess history (some b) cart1 r1 e1) :=
    histWF_saveToHistory history _ hwf
  have hfilter : (handleSaveSuccess (handleSaveSuccess history (some b) cart1 r1 e1)
      (some b) cart2 r2 e2).filter (fun x => x.boardId == b.id) =
      [mkFullEntry e2 cart2 r2 (some b)] := by
    have := saveToHistory_filter (handleSaveSuccess history (some b) cart1 r1 e1)
      (mkFullEntry e2 cart2 r2 (some b)) hwf1
    rw [hbid2] at this
    exact this
  refine ⟨by rw [hfilter]; rfl, ?_, ?_⟩
  · intro x hx hxid
    have hmemf : x ∈ (handleSaveSuccess (handleSaveSuccess history (some b) cart1 r1 e1)
        (some b) cart2 r2 e2).filter (fun x => x.boardId == b.id) :=
      List.mem_filter.mpr ⟨hx, by simpa using hxid⟩
    rw [hfilter] at hmemf
    rcases List.mem_singleton.mp hmemf with rfl
    simp [mkFullEntry]
  · intro habsent
    apply saveToHistory_of_not_mem
    intro x hx hcontra
    rw [hbid1] at hcontra
    exact habsent (List.mem_map.mpr ⟨x, hx, hcontra⟩)

/-- Witness for C5 at concrete inputs: a well-formed two-entry history, two
saves for the fresh board id `"b9"`. -/
theorem claim_C5_witness :
    HistWF [sampleEntry "h1" "a" [], sampleEntry "h2" "b" []] ∧ ("b9" : String) ≠ "" ∧
    (((handleSaveSuccess
        (handleSaveSuccess [sampleEntry "h1" "a" [], sampleEntry "h2" "b" []]
          (some ⟨"b9", 2000, 150, 50, "7"⟩) [] none (sampleEntry "h3" "x" []))
        (some ⟨"b9", 2000, 150, 50, "7"⟩) [⟨prodS1, 1⟩] none (sampleEntry "h4" "x" [])).filter
      (fun x => x.boardId == "b9")).length = 1) :=
  ⟨by decide, by decide,
   (claim_C5_history_overwrite [sampleEntry "h1" "a" [], sampleEntry "h2" "b" []]
      ⟨"b9", 2000, 150, 50, "7"⟩ [] [⟨prodS1, 1⟩] none none
      (sampleEntry "h3" "x" []) (sampleEntry "h4" "x" []) (by decide) (by decide)).1⟩

lemma foldl_pair_eq (e : CartItem → ℚ) (v : CartItem → ℤ) (items : List CartItem)
    (a : ℚ) (b : ℤ) :
    items.foldl (fun acc item => (acc.1 + e item, acc.2 + v item)) (a, b)
      = (a + (items.map e).sum, b + (items.map v).sum) := by
  induction items generalizing a b with
  | nil => simp
  | cons x xs ih => simp [ih, add_assoc]

/-- C1: for every board with positive dimensions and every cart,
`calculateStats` returns earnings `Σ price·qty`, board volume
`l·w·t / 1e9`, products volume `Σ (dims product)·qty / 1e9` (one division),
and yield `round-half-up(products-mm³ / board-mm³ · 100)` with no clamping;
`calculateStats null []` is all zeros; and the concrete Scenario 1 holds.
The last conjunct exhibits an unclamped yield above 100%. -/
theorem claim_C1_calculateStats_spec (b : BoardDimensions) (items : List CartItem)
    (hl : 0 < b.length) (hw : 0 < b.width) (ht : 0 < b.thickness) :
    (calculateStats (some b) items).earnings = cartEarnings items ∧
    (calculateStats (some b) items).boardVolumeM3 =
      ((b.length * b.width * b.thickness : ℤ) : ℚ) / 1000000000 ∧
    (calculateStats (some b) items).productsVolumeM3 =
      (cartVolumeMm3 items : ℚ) / 1000000000 ∧
    (calculateStats (some b) items).yieldPercentage =
      jsRound ((cartVolumeMm3 items : ℚ) / ((b.length * b.width * b.thickness : ℤ) : ℚ) * 100) ∧
    calculateStats none [] =
      { earnings := 0, yieldPercentage := 0, boardVolumeM3 := 0, productsVolumeM3 := 0 } ∧
    calculateStats (some boardS1) [⟨prodS1, 2⟩] =
      { earnings := 300, yieldPercentage := 26, boardVolumeM3 := 0.015,
        productsVolumeM3 := 0.00384 } ∧
    (calculateStats (some ⟨"bx", 100, 100, 100, "7"⟩)
      [⟨⟨"px", "cube", ⟨100, 100, 100⟩, 10⟩, 2⟩]).yieldPercentage = 200 := by
  have hpos : (0 : ℤ) < b.width * b.thickness * b.length := mul_pos (mul_pos hw ht) hl
  refine ⟨calculateStats_earnings _ _, ?_, calculateStats_productsVolume _ _, ?_, ?_, ?_, ?_⟩
  · simp only [calculateStats]
    push_cast
    ring_nf
  · simp only [calculateStats, hpos, if_true]
    rw [foldl_add_eq_sum]
    congr 1
    rw [show (0 : ℤ) + (items.map fun item => productVolMm3 item.product * item.quantity).sum
          = cartVolumeMm3 items by simp [cartVolumeMm3]]
    push_cast
    ring
  · norm_num [calculateStats]
  · simp only [calculateStats, jsRound, productVolMm3, boardS1, prodS1, Stats.mk.injEq]
    norm_num
  · simp only [calculateStats, jsRound, productVolMm3]
    norm_num

/-- Witness for C1 at the concrete Scenario 1 board. -/
theorem claim_C1_witness :
    (0 : ℤ) < boardS1.length ∧ (0 : ℤ) < boardS1.width ∧ (0 : ℤ) < boardS1.thickness ∧
    (calculateStats (some boardS1) [⟨prodS1, 2⟩]).earnings = cartEarnings [⟨prodS1, 2⟩] :=
  ⟨by decide, by decide, by decide,
   (claim_C1_calculateStats_spec boardS1 [⟨prodS1, 2⟩]
      (by decide) (by decide) (by decide)).1⟩

/-- C10: warehouse mode — `calculateStats(null, cart)` on a non-empty cart
still computes full earnings and products volume while board volume and
yield are 0; the ProductGrid's `calculateLocalStats` agrees with it. -/
theorem claim_C10_warehouse_mode (items : List CartItem) (h : items ≠ []) :
    (calculateStats none items).boardVolumeM3 = 0 ∧
    (calculateStats none items).yieldPercentage = 0 ∧
    (calculateStats none items).earnings = cartEarnings items ∧
    (calculateStats none items).productsVolumeM3 = (cartVolumeMm3 items : ℚ) / 1000000000 ∧
    calculateLocalStats none items = calculateStats none items := by
  refine ⟨by norm_num [calculateStats], by norm_num [calculateStats],
          calculateStats_earnings _ _, calculateStats_productsVolume _ _, ?_⟩
  simp only [calculateLocalStats, calculateStats, foldl_pair_eq, foldl_add_eq_sum]
  norm_num [cartEarnings, cartVolumeMm3]

/-- Witness for C10 at a concrete non-empty cart. -/
theorem claim_C10_witness :
    ([⟨prodS1, 2⟩] : List CartItem) ≠ [] ∧
    (calculateStats none [⟨prodS1, 2⟩]).yieldPercentage = 0 :=
  ⟨by decide, (claim_C10_warehouse_mode [⟨prodS1, 2⟩] (by decide)).2.1⟩

/-! ### Persistence collaborator (sheet service) -/

/-- The observable fields of a webhook POST payload. `status` is only set by
the soft-delete call; `action` distinguishes `'add'` from `'update'`. -/
structure SheetPayload where
  action : String
  boardId : String
  status : Option String
  batchNumber : Option String
  earnings : Option ℚ
  yieldPercentage : Option ℤ
  totalItems : Option ℤ
deriving DecidableEq, Repr

/-- The payload `deleteEntry` posts: an update with status `'deleted'`,
not a row removal. -/
def deleteEntryPayload (boardId : String) : SheetPayload :=
  { action := "update", boardId := boardId, status := some "deleted"
    batchNumber := none, earnings := none, yieldPercentage := none, totalItems := none }

/-- Lean embedding of `deleteEntry` from the sheet service: returns `false`
without any call when no webhook URL is configured; otherwise posts the
soft-delete payload once and reports the fetch outcome (a rejected fetch is
caught and returned as `false`). -/
def deleteEntry (boardId : String) (webhookUrl : String) (fetchOk : Bool) :
    Bool × List SheetPayload :=
  if webhookUrl = "" then (false, [])
  else (fetchOk, [deleteEntryPayload boardId])

/-- Lean embedding of `updateSheetEntry` from the sheet service. -/
def updateSheetEntry (boardId : String) (batchNumber : String) (cart : List CartItem)
    (analysis : Stats) (webhookUrl : String) (fetchOk : Bool) :
    Bool × List SheetPayload :=
  if webhookUrl = "" then (false, [])
  else
    (fetchOk,
     [{ action := "update", boardId := boardId, status := none
        batchNumber := some batchNumber, earnings := some analysis.earnings
        yieldPercentage := some analysis.yieldPercentage
        totalItems := some (cartItemCount cart) }])

/-- Lean embedding of `saveToGoogleSheet` from the sheet service: with a
webhook URL it posts the `'add'` payload once and reports the fetch outcome
(a rejected fetch is caught inside and returned as `false`); with no URL it
resolves `true` after a simulated delay, making no network call. -/
def saveToGoogleSheet (board : BoardDimensions) (cart : List CartItem) (analysis : Stats)
    (webhookUrl : String) (fetchOk : Bool) : Bool × List SheetPayload :=
  let payload : SheetPayload :=
    { action := "add", boardId := board.id, status := none
      batchNumber := some board.batchNumber, earnings := some analysis.earnings
      yieldPercentage := some analysis.yieldPercentage
      totalItems := some (cartItemCount cart) }
  if webhookUrl = "" then (true, [])
  else (fetchOk, [payload])

/-! ### History edit flow (`handleSaveEdit` in the history component) -/

/-- One component of `dimsStr.split('x').map(Number)` with the `|| 0`
fallback: a non-numeric or missing component becomes `0`. -/
def parseDim (s : String) : ℤ := s.toInt?.getD 0

/-- Lean embedding of `parseDimensions`: parse an `"LxWxT"` string. -/
def parseDimensions (dimsStr : String) (id : String) (batchNumber : String) :
    BoardDimensions :=
  let parts := dimsStr.splitOn "x"
  { id := id
    length := parseDim (parts.getD 0 "")
    width := parseDim (parts.getD 1 "")
    thickness := parseDim (parts.getD 2 "")
    batchNumber := batchNumber }

/-- Observable outcome of one run of `handleSaveEdit`: the webhook calls
made, the entry handed to `onUpdateHistoryEntry` (if any), whether the edit
modal was closed, and the alert message shown on failure. -/
structure EditOutcome where
  calls : List SheetPayload
  localUpdate : Option HistoryEntry
  editorClosed : Bool
  alert : Option String
deriving DecidableEq, Repr

/-- Lean embedding of `handleSaveEdit` from the history component: an empty
edited cart triggers the soft delete (`deleteEntry`) and, on success, zeroes
the local entry's stats in place; a non-empty cart recomputes stats from the
parsed board dimensions and asks `updateSheetEntry` to update the remote
record; on failure an alert is shown and no local update happens. -/
def handleSaveEdit (editingEntry : HistoryEntry) (webhookUrl : String) (fetchOk : Bool) :
    EditOutcome :=
  if editingEntry.cart.isEmpty then
    let res := deleteEntry editingEntry.boardId webhookUrl fetchOk
    { calls := res.2
      localUpdate :=
        if res.1 then
          some { editingEntry with
                 earnings := 0, yieldPercentage := 0, itemCount := 0, cart := [] }
        else none
      editorClosed := res.1
      alert := if res.1 then none
               else some "Не удалось обновить таблицу Google. Проверьте соединение." }
  else
    let boardDims := parseDimensions editingEntry.boardDims editingEntry.boardId
      editingEntry.batchNumber
    let stats := calculateStats (some boardDims) editingEntry.cart
    let res := updateSheetEntry editingEntry.boardId editingEntry.batchNumber
      editingEntry.cart stats webhookUrl fetchOk
    { calls := res.2
      localUpdate :=
        if res.1 then
          some { editingEntry with
                 earnings := stats.earnings, yieldPercentage := stats.yieldPercentage
                 itemCount := cartItemCount editingEntry.cart }
        else none
      editorClosed := res.1
      alert := if res.1 then none
               else some "Не удалось обновить таблицу Google. Проверьте соединение." }

/-- C6: confirming an edit whose cart is empty invokes the soft-delete
persistence operation exactly once with the entry's board id — an update
payload with status `'deleted'`, not a row removal — and on success updates
the local entry to zeroed stats with an empty cart, leaving it in the
visible history list (same length, entry still present) instead of
removing it. -/
theorem claim_C6_soft_delete (editingEntry : HistoryEntry) (webhookUrl : String)
    (hcart : editingEntry.cart = []) (hurl : webhookUrl ≠ "") :
    (handleSaveEdit editingEntry webhookUrl true).calls =
      [deleteEntryPayload editingEntry.boardId] ∧
    deleteEntryPayload editingEntry.boardId =
      { action := "update", boardId := editingEntry.boardId, status := some "deleted"
        batchNumber := none, earnings := none, yieldPercentage := none,
        totalItems := none } ∧
    (handleSaveEdit editingEntry webhookUrl true).localUpdate =
      some { editingEntry with
             earnings := 0, yieldPercentage := 0, itemCount := 0, cart := [] } ∧
    (∀ history : List HistoryEntry, editingEntry ∈ history →
      (handleHistoryUpdate history
          { editingEntry with
            earnings := 0, yieldPercentage := 0, itemCount := 0, cart := [] }).length
        = history.length ∧
      { editingEntry with
        earnings := 0, yieldPercentage := 0, itemCount := 0, cart := [] } ∈
        handleHistoryUpdate history
          { editingEntry with
            earnings := 0, yieldPercentage := 0, itemCount := 0, cart := [] }) := by
  have hempty : editingEntry.cart.isEmpty = true := by
    rw [hcart]; rfl
  refine ⟨?_, rfl, ?_, ?_⟩
  · simp [handleSaveEdit, hempty, deleteEntry, hurl]
  · simp [handleSaveEdit, hempty, deleteEntry, hurl]
  · intro history hmem
    constructor
    · simp [handleHistoryUpdate]
    · apply List.mem_map.mpr
      refine ⟨editingEntry, hmem, ?_⟩
      simp

/-- Witness for C6 at a concrete entry with an empty cart. -/
theorem claim_C6_witness :
    (sampleEntry "h1" "b1" []).cart = [] ∧ ("https://sheet" : String) ≠ "" ∧
    (handleSaveEdit (sampleEntry "h1" "b1" []) "https://sheet" true).calls =
      [deleteEntryPayload "b1"] :=
  ⟨by decide, by decide,
   (claim_C6_soft_delete (sampleEntry "h1" "b1" []) "https://sheet"
      (by decide) (by decide)).1⟩

/-! ### AnalysisView save flow -/

/-- Observable outcome of one run of the AnalysisView `handleSave`:
the `isSaved` flag after the run, the alert shown (if any), the history
entry handed to `onSaveSuccess` (if any), the webhook calls made, and the
boolean result `saveToGoogleSheet` returned (which the handler discards). -/
structure SaveOutcome where
  isSaved : Bool
  alert : Option String
  savedEntry : Option HistoryEntry
  calls : List SheetPayload
  webhookSuccess : Bool
deriving DecidableEq, Repr

/-- Lean embedding of the AnalysisView `handleSave`: when no webhook URL is
configured and the user confirms the settings prompt, the handler returns
early; otherwise it awaits `saveToGoogleSheet` — discarding its boolean
result — then unconditionally sets `isSaved`, builds the history entry and
hands it to `onSaveSuccess`. The `catch` branch is unreachable because
`saveToGoogleSheet` catches its own fetch errors, so no alert is shown on a
failed webhook call. -/
def analysisHandleSave (board : BoardDimensions) (cart : List CartItem) (result : Stats)
    (webhookUrl : String) (confirmGoToSettings : Bool) (fetchOk : Bool)
    (entryId : String) (timestamp : String) (timeStats : TimeStats) : SaveOutcome :=
  if webhookUrl = "" ∧ confirmGoToSettings then
    { isSaved := false, alert := none, savedEntry := none, calls := []
      webhookSuccess := false }
  else
    let res := saveToGoogleSheet board cart result webhookUrl fetchOk
    let historyEntry : HistoryEntry :=
      { id := entryId, timestamp := timestamp, batchNumber := board.batchNumber
        earnings := result.earnings, yieldPercentage := result.yieldPercentage
        itemCount := cartItemCount cart
        boardDims := toString board.length ++ "x" ++ toString board.width ++ "x" ++
          toString board.thickness
        boardId := board.id, boardVolume := result.boardVolumeM3, cart := cart
        timeStats := some timeStats }
    { isSaved := true, alert := none, savedEntry := some historyEntry, calls := res.2
      webhookSuccess := res.1 }

/-- Counterexample to C7 as stated: at a concrete save whose webhook fetch
fails (`saveToGoogleSheet` returns `false`), the ledger still transitions to
the Saved state and surfaces no message, contradicting "no optimistic state
transition" and "a user-visible message is surfaced". -/
theorem claim_C7_counterexample :
    (analysisHandleSave boardS1 [⟨prodS1, 2⟩]
        { earnings := 300, yieldPercentage := 26, boardVolumeM3 := 0.015,
          productsVolumeM3 := 0.00384 }
        "https://sheet" false false "id1" "ts" ⟨0, 0, 0⟩).webhookSuccess = false ∧
    ¬ ((analysisHandleSave boardS1 [⟨prodS1, 2⟩]
        { earnings := 300, yieldPercentage := 26, boardVolumeM3 := 0.015,
          productsVolumeM3 := 0.00384 }
        "https://sheet" false false "id1" "ts" ⟨0, 0, 0⟩).isSaved = false ∧
      (analysisHandleSave boardS1 [⟨prodS1, 2⟩]
        { earnings := 300, yieldPercentage := 26, boardVolumeM3 := 0.015,
          productsVolumeM3 := 0.00384 }
        "https://sheet" false false "id1" "ts" ⟨0, 0, 0⟩).alert.isSome = true) := by
  constructor
  · rfl
  · intro hcontra
    exact absurd hcontra.1 (by simp [analysisHandleSave, saveToGoogleSheet])

/-- C7 (amended): when the persistence call of a save fails, the failure is
caught inside `saveToGoogleSheet` and returned as `false` (no exception
propagates), and local history is still updated — but the handler discards
that boolean, so the ledger still transitions to Saved and no user-visible
message is surfaced. -/
theorem claim_C7_save_failure_swallowed (board : BoardDimensions) (cart : List CartItem)
    (result : Stats) (webhookUrl : String) (confirmGoToSettings : Bool)
    (entryId : String) (timestamp : String) (timeStats : TimeStats)
    (hurl : webhookUrl ≠ "") :
    (analysisHandleSave board cart result webhookUrl confirmGoToSettings false
        entryId timestamp timeStats).webhookSuccess = false ∧
    (analysisHandleSave board cart result webhookUrl confirmGoToSettings false
        entryId timestamp timeStats).isSaved = true ∧
    (analysisHandleSave board cart result webhookUrl confirmGoToSettings false
        entryId timestamp timeStats).alert = none ∧
    (analysisHandleSave board cart result webhookUrl confirmGoToSettings false
        entryId timestamp timeStats).savedEntry.isSome = true := by
  have hguard : ¬ (webhookUrl = "" ∧ confirmGoToSettings) := fun h => hurl h.1
  simp [analysisHandleSave, hguard, saveToGoogleSheet, hurl]

/-- Witness for C7 at a concrete failed save. -/
theorem claim_C7_witness :
    ("https://sheet" : String) ≠ "" ∧
    (analysisHandleSave boardS1 [⟨prodS1, 2⟩]
        { earnings := 300, yieldPercentage := 26, boardVolumeM3 := 0.015,
          productsVolumeM3 := 0.00384 }
        "https://sheet" false false "id1" "ts" ⟨0, 0, 0⟩).isSaved = true :=
  ⟨by decide,
   (claim_C7_save_failure_swallowed boardS1 [⟨prodS1, 2⟩]
      { earnings := 300, yieldPercentage := 26, boardVolumeM3 := 0.015,
        productsVolumeM3 := 0.00384 }
      "https://sheet" false "id1" "ts" ⟨0, 0, 0⟩ (by decide)).2.1⟩

/-! ### Yield gate (AnalysisView `canSave`) -/

/-- The settings fields the modelled logic reads (`AppSettings` in App.tsx). -/
structure AppSettings where
  minYield : ℤ
  maxYield : ℤ
  isYieldControlEnabled : Bool
  googleSheetUrl : String
  isAiAnalysisEnabled : Bool
deriving DecidableEq, Repr

/-- Lean embedding of the AnalysisView save gate:
`canSave = !isSaved && (!isYieldControlEnabled || !isYieldInvalid)` where
`isYieldInvalid = yield < minYield || yield > maxYield`. -/
def canSave (isSaved : Bool) (settings : AppSettings) (result : Stats) : Bool :=
  let isYieldLow : Bool := decide (result.yieldPercentage < settings.minYield)
  let isYieldHigh : Bool := decide (result.yieldPercentage > settings.maxYield)
  let isYieldInvalid : Bool := isYieldLow || isYieldHigh
  !isSaved && (!settings.isYieldControlEnabled || !isYieldInvalid)

/-- C8: with yield control enabled, a save is permitted exactly when the
yield lies in the `[minYield, maxYield]` band and the shift is not already
saved; with it disabled, the yield never blocks the save; and the gate never
alters the result's `yieldPercentage` — the history entry saved downstream
carries it unchanged. -/
theorem claim_C8_yield_gate (isSaved : Bool) (settings : AppSettings) (result : Stats) :
    (settings.isYieldControlEnabled = true →
      (canSave isSaved settings result = true ↔
        (isSaved = false ∧ settings.minYield ≤ result.yieldPercentage ∧
         result.yieldPercentage ≤ settings.maxYield))) ∧
    (settings.isYieldControlEnabled = false →
      canSave isSaved settings result = !isSaved) ∧
    (∀ (board : BoardDimensions) (cart : List CartItem) (webhookUrl : String)
        (confirmGoToSettings fetchOk : Bool) (entryId timestamp : String)
        (timeStats : TimeStats), webhookUrl ≠ "" →
      ((analysisHandleSave board cart result webhookUrl confirmGoToSettings fetchOk
          entryId timestamp timeStats).savedEntry.map
        (fun e => e.yieldPercentage)) = some result.yieldPercentage) := by
  refine ⟨?_, ?_, ?_⟩
  · intro hen
    cases isSaved <;>
      by_cases h1 : result.yieldPercentage < settings.minYield <;>
      by_cases h2 : result.yieldPercentage > settings.maxYield <;>
      simp [canSave, hen, h1, h2] <;> omega
  · intro hdis
    simp [canSave, hdis]
  · intro board cart webhookUrl confirmGoToSettings fetchOk entryId timestamp ts hurl
    have hguard : ¬ (webhookUrl = "" ∧ confirmGoToSettings) := fun h => hurl h.1
    simp [analysisHandleSave, hguard]

/-- Witness for C8 at a concrete enabled-gate configuration. -/
theorem claim_C8_witness :
    ({ minYield := 10, maxYield := 98, isYieldControlEnabled := true,
       googleSheetUrl := "", isAiAnalysisEnabled := true } : AppSettings).isYieldControlEnabled
      = true ∧
    (canSave false
        { minYield := 10, maxYield := 98, isYieldControlEnabled := true,
          googleSheetUrl := "", isAiAnalysisEnabled := true }
        { earnings := 300, yieldPercentage := 26, boardVolumeM3 := 0.015,
          productsVolumeM3 := 0.00384 } = true ↔
      (false = false ∧ (10 : ℤ) ≤ 26 ∧ (26 : ℤ) ≤ 98)) :=
  ⟨rfl,
   (claim_C8_yield_gate false
      { minYield := 10, maxYield := 98, isYieldControlEnabled := true,
        googleSheetUrl := "", isAiAnalysisEnabled := true }
      { earnings := 300, yieldPercentage := 26, boardVolumeM3 := 0.015,
        productsVolumeM3 := 0.00384 }).1 rfl⟩

/-! ### EmployeeInputView save flow -/

/-- The board input fields (`BoardInputState = Omit<BoardDimensions,'id'>`). -/
structure BoardInputState where
  length : ℤ
  width : ℤ
  thickness : ℤ
  batchNumber : String
deriving DecidableEq, Repr

/-- Observable outcome of one run of the EmployeeInputView `handleSave`. -/
structure EmployeeSaveOutcome where
  error : Option String
  calls : List SheetPayload
  savedEntry : Option HistoryEntry
  boardCreated : Option BoardDimensions
  kpi : ℚ
  cartCleared : Bool
  webhookSuccess : Bool
deriving DecidableEq, Repr

/-- Lean embedding of the EmployeeInputView `handleSave`: validation (all
dimensions positive, non-blank batch number, non-empty cart) runs first and
returns synchronously with an error message, before any webhook call; with
no webhook URL the handler returns after the settings prompt in both
branches; otherwise it creates the board, computes the analysis (stats via
`calculateStats`) and KPI, posts the save, builds the history entry, resets
the form and clears the cart. -/
def employeeHandleSave (dims : BoardInputState) (cart : List CartItem)
    (webhookUrl : String) (boardId : String) (timestamp : String)
    (selectedUnitCost : ℚ) (fetchOk : Bool) : EmployeeSaveOutcome :=
  if dims.length ≤ 0 ∨ dims.width ≤ 0 ∨ dims.thickness ≤ 0 then
    { error := some "Все размеры должны быть больше 0", calls := [], savedEntry := none
      boardCreated := none, kpi := 0, cartCleared := false, webhookSuccess := false }
  else if dims.batchNumber.trim = "" then
    { error := some "Выберите номер партии", calls := [], savedEntry := none
      boardCreated := none, kpi := 0, cartCleared := false, webhookSuccess := false }
  else if cart = [] then
    { error := some "Добавьте хотя бы одно изделие", calls := [], savedEntry := none
      boardCreated := none, kpi := 0, cartCleared := false, webhookSuccess := false }
  else if webhookUrl = "" then
    { error := none, calls := [], savedEntry := none, boardCreated := none
      kpi := 0, cartCleared := false, webhookSuccess := false }
  else
    let board : BoardDimensions :=
      { id := boardId, length := dims.length, width := dims.width
        thickness := dims.thickness, batchNumber := dims.batchNumber }
    let analysisResult := calculateStats (some board) cart
    let boardCost := selectedUnitCost * analysisResult.boardVolumeM3
    let totalCost := cartEarnings cart
    let kpi := if boardCost > 0 then totalCost / boardCost else 0
    let res := saveToGoogleSheet board cart analysisResult webhookUrl fetchOk
    let historyEntry : HistoryEntry :=
      { id := boardId, timestamp := timestamp, batchNumber := dims.batchNumber
        earnings := analysisResult.earnings
        yieldPercentage := analysisResult.yieldPercentage
        itemCount := cartItemCount cart
        boardDims := toString dims.length ++ "x" ++ toString dims.width ++ "x" ++
          toString dims.thickness
        boardId := boardId, boardVolume := analysisResult.boardVolumeM3, cart := cart
        timeStats := some ⟨0, 0, 0⟩ }
    { error := none, calls := res.2, savedEntry := some historyEntry
      boardCreated := some board, kpi := kpi, cartCleared := true
      webhookSuccess := res.1 }

/-- C9: any save attempt with a non-positive board dimension, a blank
(trimmed) batch identifier, or an empty cart is rejected synchronously with
a validation message before any persistence call: no webhook call is made,
no board is created, no history entry is produced, and the cart is not
cleared. -/
theorem claim_C9_validation (dims : BoardInputState) (cart : List CartItem)
    (webhookUrl : String) (boardId : String) (timestamp : String)
    (selectedUnitCost : ℚ) (fetchOk : Bool)
    (h : dims.length ≤ 0 ∨ dims.width ≤ 0 ∨ dims.thickness ≤ 0 ∨
         dims.batchNumber.trim = "" ∨ cart = []) :
    (employeeHandleSave dims cart webhookUrl boardId timestamp selectedUnitCost
        fetchOk).error.isSome = true ∧
    (employeeHandleSave dims cart webhookUrl boardId timestamp selectedUnitCost
        fetchOk).calls = [] ∧
    (employeeHandleSave dims cart webhookUrl boardId timestamp selectedUnitCost
        fetchOk).savedEntry = none ∧
    (employeeHandleSave dims cart webhookUrl boardId timestamp selectedUnitCost
        fetchOk).boardCreated = none ∧
    (employeeHandleSave dims cart webhookUrl boardId timestamp selectedUnitCost
        fetchOk).cartCleared = false := by
  unfold employeeHandleSave
  split_ifs with h1 h2 h3 h4
  · exact ⟨rfl, rfl, rfl, rfl, rfl⟩
  · exact ⟨rfl, rfl, rfl, rfl, rfl⟩
  · exact ⟨rfl, rfl, rfl, rfl, rfl⟩
  · exact absurd h (by
      push_neg
      refine ⟨?_, ?_, ?_, h2, h3⟩ <;> omega)
  · exact absurd h (by
      push_neg
      refine ⟨?_, ?_, ?_, h2, h3⟩ <;> omega)

/-- Witness for C9 at a concrete invalid save attempt (zero length). -/
theorem claim_C9_witness :
    ((0 : ℤ) ≤ 0 ∨ (150 : ℤ) ≤ 0 ∨ (50 : ℤ) ≤ 0 ∨
      ("7" : String).trim = "" ∨ ([⟨prodS1, 1⟩] : List CartItem) = []) ∧
    (employeeHandleSave ⟨0, 150, 50, "7"⟩ [⟨prodS1, 1⟩] "https://sheet" "b1" "ts" 100
        true).calls = [] :=
  ⟨Or.inl (by norm_num),
   (claim_C9_validation ⟨0, 150, 50, "7"⟩ [⟨prodS1, 1⟩] "https://sheet" "b1" "ts" 100
      true (Or.inl (by norm_num))).2.1⟩
